import Mathlib

/- Verification of the skill event and intent dispatch layer of mycroft-core
   (mycroft/skills/core.py): a shallow embedding of MycroftSkill.add_event,
   register_intent, enable_intent, register_entity_file, shutdown, and of the
   FallbackSkill registry and dispatcher, with theorems checking the
   documented behaviour. -/

namespace MycroftCore

/-- Bus message: a message type plus a string-keyed payload, as built by
mycroft.messagebus.message.Message in the source. Payload values are
modelled as strings. -/
structure Message where
  msgType : String
  data : List (String × String)
  deriving DecidableEq, Repr

/-- Outcome of calling a Python callable with a given number of positional
arguments: normal return, a raised TypeError, or another raised exception
carrying a message text. -/
inductive CallResult where
  | ok
  | typeError
  | error (msg : String)
  deriving DecidableEq, Repr

/-- A Python handler as seen by MycroftSkill.add_event (core.py 323-382):
argspec is the length of getargspec(handler).args, which counts the self
slot of a bound method; callN is the behaviour of the callable when invoked
with N positional arguments; hname is the result of get_handler_name. -/
structure PyCallable where
  argspec : Nat
  call0 : CallResult
  call1 : CallResult
  call2 : CallResult
  hname : String
  deriving DecidableEq, Repr

/-- Arity reported by getargspec for a bound method with the given number of
visible parameters besides self: the implicit self slot is counted. -/
def boundMethodArgspec (visible : Nat) : Nat := visible + 1

/-- Call dispatch of the add_event wrapper (core.py 341-362): given the
need_self flag, returns the sequence of actual-argument counts of the calls
attempted on the handler, together with the result of the last attempted
call; an argument-count mismatch where the source executes raise TypeError
is rendered as an empty call list with result typeError. For need_self the
owner counts as one actual argument, so handler(self, message) is a
two-argument call and handler(self) a one-argument call. -/
def dispatchCalls (needSelf : Bool) (h : PyCallable) : List Nat × CallResult :=
  if needSelf then
    if h.argspec = 2 then ([2], h.call2)
    else if h.argspec = 1 then ([1], h.call1)
    else if h.argspec = 0 then
      match h.call2 with
      | CallResult.typeError => ([2, 1], h.call1)
      | r => ([2], r)
    else ([], CallResult.typeError)
  else
    if h.argspec = 2 then ([1], h.call1)
    else if h.argspec = 1 then ([0], h.call0)
    else ([], CallResult.typeError)

/-- Message emitted at core.py 339-340 before the handler runs. -/
def handlerStartMsg (n : String) : Message :=
  ⟨"mycroft.skill.handler.start", [("handler", n)]⟩

/-- Message emitted at core.py 377-378 after the try block. -/
def handlerCompleteMsg (n : String) : Message :=
  ⟨"mycroft.skill.handler.complete", [("handler", n)]⟩

/-- Message emitted at core.py 373-375 inside the except block. -/
def handlerCompleteExcMsg (n e : String) : Message :=
  ⟨"mycroft.skill.handler.complete", [("handler", n), ("exception", e)]⟩

/-- Message emitted by MycroftSkill.speak (core.py 524-538). -/
def speakMsg (utt : String) : Message :=
  ⟨"speak", [("utterance", utt), ("expect_response", "False")]⟩

/-- Text carried by e.message for the modelled exception: a bare TypeError
raised by the dispatch code has an empty message. -/
def excText : CallResult → String
  | CallResult.ok => ""
  | CallResult.typeError => ""
  | CallResult.error e => e

/-- The wrapper closure built by MycroftSkill.add_event (core.py 335-378).
Returns the attempted call shapes and the full trace of bus messages the
wrapper emits for one delivery. On success the trace is start then complete;
on any exception the except block speaks an error, emits a complete message
with an exception field, and then the final unconditional emit at
core.py 377 adds a second complete message. The delivered message payload is
never inspected by the wrapper. -/
def wrapper (skillName : String) (needSelf : Bool) (h : PyCallable)
    (_msg : Message) : List Nat × List Message :=
  let dc := dispatchCalls needSelf h
  (dc.1,
    match dc.2 with
    | CallResult.ok => [handlerStartMsg h.hname, handlerCompleteMsg h.hname]
    | r =>
        [handlerStartMsg h.hname,
         speakMsg ("An error occurred while processing a request in " ++ skillName),
         handlerCompleteExcMsg h.hname (excText r),
         handlerCompleteMsg h.hname])

/-- Number of messages of the given type in a trace. -/
def countType (t : String) (l : List Message) : Nat :=
  l.countP (fun m => m.msgType == t)

/-- Result of calling a fallback handler with a message: a truthy return,
a falsy return, or a raised exception carrying a text. -/
inductive FbResult where
  | success
  | failure
  | raises (e : String)
  deriving DecidableEq, Repr

/-- Truthiness test applied by the dispatcher at core.py 732. -/
def isFbSuccess : FbResult → Bool
  | FbResult.success => true
  | _ => false

/-- Message emitted at core.py 727-728 when fallback handling starts. -/
def fallbackStartMsg : Message :=
  ⟨"mycroft.skill.handler.start", [("handler", "fallback")]⟩

/-- Message emitted at core.py 734-738 when a fallback handler succeeds. -/
def fallbackCompleteMsg (n : String) : Message :=
  ⟨"mycroft.skill.handler.complete", [("handler", "fallback"), ("fallback_handler", n)]⟩

/-- Message emitted at core.py 742 when every fallback handler failed. -/
def completeIntentFailureMsg : Message := ⟨"complete_intent_failure", []⟩

/-- Message emitted at core.py 745-748 when every fallback handler failed. -/
def fallbackExhaustMsg : Message :=
  ⟨"mycroft.skill.handler.complete",
   [("handler", "fallback"), ("exception", "No fallback could handle intent.")]⟩

/-- Loop body of the dispatcher built by
FallbackSkill.make_intent_failure_handler (core.py 729-748). Handlers are
identified by a numeric id; env gives the behaviour of a handler on a
message and names gives its get_handler_name result. Returns the ids
invoked in order, the bus messages emitted after the start message, and the
log lines (LOG.info at 741 and LOG.warning at 743). A raised exception is
caught, logged and the loop continues; a truthy return emits the completion
message and halts. -/
def fbLoop (env : Nat → Message → FbResult) (names : Nat → String) (msg : Message) :
    List Nat → List Nat × (List Message × List String)
  | [] => ([], ([completeIntentFailureMsg, fallbackExhaustMsg],
                ["No fallback could handle intent."]))
  | h :: rest =>
    match env h msg with
    | FbResult.success => ([h], ([fallbackCompleteMsg (names h)], []))
    | FbResult.failure =>
        let r := fbLoop env names msg rest
        (h :: r.1, r.2)
    | FbResult.raises e =>
        let r := fbLoop env names msg rest
        (h :: r.1, (r.2.1, ("Exception in fallback: " ++ e) :: r.2.2))

/-- The registry sorted by priority, ascending, as done by
sorted(cls.fallback_handlers.items(), key=operator.itemgetter(0)) at
core.py 729-730. The registry dict is modelled as an association list of
(priority, handler id) pairs with distinct keys. -/
def sortedFallbacks (reg : List (Int × Nat)) : List (Int × Nat) :=
  List.insertionSort (fun a b => a.1 ≤ b.1) reg

/-- The dispatcher built by FallbackSkill.make_intent_failure_handler
(core.py 721-750): emits the start message, then runs the loop over the
registry entries sorted by ascending priority. -/
def make_intent_failure_handler (env : Nat → Message → FbResult)
    (names : Nat → String) (reg : List (Int × Nat)) (msg : Message) :
    List Nat × (List Message × List String) :=
  let r := fbLoop env names msg ((sortedFallbacks reg).map Prod.snd)
  (r.1, (fallbackStartMsg :: r.2.1, r.2.2))

/-- Occupied priority keys of the registry. -/
def fbKeys (reg : List (Int × Nat)) : List Int := reg.map Prod.fst

/-- Probing loop of FallbackSkill._register_fallback (core.py 762-763):
while priority in cls.fallback_handlers: priority += 1. Returns the first
unoccupied integer at or above p. The loop terminates because strictly
fewer keys lie at or above p + 1 than at or above p when p is a key. -/
def findSlot (keys : List Int) (p : Int) : Int :=
  if hp : p ∈ keys then findSlot keys (p + 1) else p
termination_by keys.countP (fun k => decide (p ≤ k))
decreasing_by
  have hmono : ∀ u : List Int,
      u.countP (fun k => decide (p + 1 ≤ k)) ≤ u.countP (fun k => decide (p ≤ k)) := by
    intro u
    apply List.countP_mono_left
    intro x _ hx
    simp only [decide_eq_true_eq] at hx ⊢
    omega
  induction keys with
  | nil => cases hp
  | cons a t ih =>
    simp only [List.countP_cons]
    rcases List.mem_cons.mp hp with heq | hpt
    · have h1 : decide (p + 1 ≤ a) = false := by
        rw [← heq]; exact decide_eq_false (by omega)
      have h2 : decide (p ≤ a) = true := by
        rw [← heq]; exact decide_eq_true (by omega)
      rw [h1, h2]
      have := hmono t
      simp only [Bool.false_eq_true, if_false, if_true]
      omega
    · have h3 := ih hpt
      by_cases hle1 : p + 1 ≤ a
      · have hle2 : p ≤ a := by omega
        simp only [hle1, hle2, decide_eq_true_eq, if_pos]
        omega
      · by_cases hle2 : p ≤ a
        · rw [decide_eq_false hle1, decide_eq_true hle2]
          simp only [Bool.false_eq_true, if_false, if_true]
          omega
        · rw [decide_eq_false hle1, decide_eq_false hle2]
          simp only [Bool.false_eq_true, if_false]
          omega

/-- FallbackSkill._register_fallback (core.py 752-765): probe upward from
the requested priority to the first free slot and store the handler there.
A fresh dict key assignment is modelled as appending the pair. -/
def _register_fallback (reg : List (Int × Nat)) (h : Nat) (p : Int) :
    List (Int × Nat) :=
  reg ++ [(findSlot (fbKeys reg) p, h)]

/-- FallbackSkill.remove_fallback (core.py 775-787): scan the registry in
iteration order, delete the first entry whose handler equals the given one
and return; when none matches, log a warning and leave the registry
unchanged. Returns the new registry and the log lines. -/
def remove_fallback (reg : List (Int × Nat)) (t : Nat) :
    List (Int × Nat) × List String :=
  match reg with
  | [] => ([], ["Could not remove fallback!"])
  | (p, h) :: rest =>
      if h = t then (rest, [])
      else
        let r := remove_fallback rest t
        ((p, h) :: r.1, r.2)

/-- Pop-and-remove loop of FallbackSkill.remove_instance_handlers
(core.py 789-795), applied to an already reversed copy of the instance
list: the source pops from the end of instance_fallback_handlers. -/
def removeHandlersRev (reg : List (Int × Nat)) : List Nat → List (Int × Nat)
  | [] => reg
  | h :: t => removeHandlersRev (remove_fallback reg h).1 t

/-- Python str containment test applied at core.py 459 for the literal
pattern .entity, translated to a character list scan. -/
def containsEntity : List Char → Bool
  | '.' :: 'e' :: 'n' :: 't' :: 'i' :: 't' :: 'y' :: _ => true
  | _ :: rest => containsEntity rest
  | [] => false

/-- Python str.replace for the literal pattern .entity with an empty
replacement, as applied at core.py 461: a single left-to-right pass
removing each non-overlapping occurrence. -/
def stripEntityAll : List Char → List Char
  | '.' :: 'e' :: 'n' :: 't' :: 'i' :: 't' :: 'y' :: rest => stripEntityAll rest
  | c :: rest => c :: stripEntityAll rest
  | [] => []

/-- Relative-path case of the external os.path.join used at core.py 463. -/
def osJoin (a b : List Char) : List Char := a ++ '/' :: b

/-- MycroftSkill.register_entity_file (core.py 441-465): raise ValueError
when the filename does not contain .entity, otherwise emit exactly one
padatious:register_entity message whose name field is the skill id, a
colon, and the filename with every .entity occurrence removed. -/
def register_entity_file (skill_id : Nat) (vocab_dir entity_file : List Char) :
    Except String (List Message) :=
  if containsEntity entity_file then
    Except.ok [⟨"padatious:register_entity",
      [("file_name", String.mk (osJoin vocab_dir entity_file)),
       ("name", toString skill_id ++ ":" ++ String.mk (stripEntityAll entity_file))]⟩]
  else
    Except.error ("Invalid entity filename: " ++ String.mk entity_file)

/-- An adapt intent as stored by register_intent: its name field, which the
source mutates when namespacing, plus the remaining descriptor fields. -/
structure Intent where
  iname : String
  payload : List (String × String)
  deriving DecidableEq, Repr

/-- Combined state of one skill instance and the shared bus: the event
bindings list self.events, the registered_intents list, a counter providing
the identity of the next wrapper closure created by add_event, the bus
subscriptions held by the external emitter, the messages emitted so far,
the class-level FallbackSkill.fallback_handlers registry, and the
per-instance instance_fallback_handlers list. -/
structure SkillWorld where
  skill_id : Nat
  events : List (String × Nat)
  registered_intents : List (String × Intent)
  nextWrapper : Nat
  subs : List (String × Nat)
  emitted : List Message
  fallback_handlers : List (Int × Nat)
  instance_fallback_handlers : List Nat
  deriving DecidableEq, Repr

/-- Modelled from the spec: the external bus client emit publishes one
message; the trace records it. -/
def emitMsg (w : SkillWorld) (m : Message) : SkillWorld :=
  { w with emitted := w.emitted ++ [m] }

/-- MycroftSkill.add_event (core.py 323-382) at the state level: when the
handler is absent nothing happens; otherwise a fresh wrapper closure is
subscribed on the emitter and recorded in self.events. -/
def add_event (w : SkillWorld) (name : String) (handler : Option Nat) :
    SkillWorld :=
  match handler with
  | none => w
  | some _ =>
      { w with
        subs := w.subs ++ [(name, w.nextWrapper)],
        events := w.events ++ [(name, w.nextWrapper)],
        nextWrapper := w.nextWrapper + 1 }

/-- MycroftSkill.register_intent (core.py 384-405) for an already built
Intent: namespace the name, emit the registration message carrying the
descriptor fields, record (local name, namespaced intent), and bind the
handler through add_event. -/
def register_intent (w : SkillWorld) (intent : Intent) (handler : Option Nat) :
    SkillWorld :=
  let localName := intent.iname
  let namespaced := toString w.skill_id ++ ":" ++ localName
  let w1 := emitMsg w ⟨"register_intent", ("name", namespaced) :: intent.payload⟩
  let w2 := { w1 with
    registered_intents := w1.registered_intents ++ [(localName, ⟨namespaced, intent.payload⟩)] }
  add_event w2 namespaced handler

/-- MycroftSkill.enable_intent (core.py 473-484): find the first recorded
intent with the given local name, remove it from the bookkeeping list,
restore its local name, and re-register it with a None handler; when no
entry matches only errors are logged. -/
def enable_intent (w : SkillWorld) (intent_name : String) : SkillWorld :=
  match w.registered_intents.find? (fun e => e.1 == intent_name) with
  | none => w
  | some (n, intent) =>
      let w1 := { w with
        registered_intents := w.registered_intents.eraseP (fun e => e.1 == intent_name) }
      register_intent w1 ⟨n, intent.payload⟩ none

/-- Modelled from the spec: the external bus client remove detaches the
given wrapper from the given event name, so that binding no longer exists
on the emitter. -/
def emitterRemoveSub (subs : List (String × Nat)) (e : String) (f : Nat) :
    List (String × Nat) :=
  subs.filter (fun s => !(s.1 == e && s.2 == f))

/-- Modelled from the spec: delivery of a message with the given type by
the external bus client invokes exactly the wrappers subscribed under that
name. -/
def deliverTargets (subs : List (String × Nat)) (nm : String) : List Nat :=
  (subs.filter (fun s => s.1 == nm)).map Prod.snd

/-- MycroftSkill.shutdown (core.py 598-618): store settings, remove every
recorded event binding from the emitter, clear self.events, emit the
detach_skill message, and run the user stop routine with containment. The
settings store and the user stop routine are external effects that do not
touch the modelled state. -/
def MycroftSkill.shutdown (w : SkillWorld) : SkillWorld :=
  let subs2 := w.events.foldl (fun s ef => emitterRemoveSub s ef.1 ef.2) w.subs
  let w1 := { w with subs := subs2, events := [] }
  emitMsg w1 ⟨"detach_skill", [("skill_id", toString w.skill_id ++ ":")]⟩

/-- FallbackSkill.remove_instance_handlers (core.py 789-795): pop each
handler registered by this instance, newest first, and remove it from the
shared registry. -/
def FallbackSkill.remove_instance_handlers (w : SkillWorld) : SkillWorld :=
  { w with
    fallback_handlers :=
      removeHandlersRev w.fallback_handlers w.instance_fallback_handlers.reverse,
    instance_fallback_handlers := [] }

/-- FallbackSkill.shutdown (core.py 797-802): remove the instance fallback
handlers, then run the MycroftSkill shutdown. -/
def FallbackSkill.shutdown (w : SkillWorld) : SkillWorld :=
  MycroftSkill.shutdown (FallbackSkill.remove_instance_handlers w)

instance : IsTotal (Int × Nat) (fun a b => a.1 ≤ b.1) :=
  ⟨fun a b => le_total a.1 b.1⟩

instance : IsTrans (Int × Nat) (fun a b => a.1 ≤ b.1) :=
  ⟨fun _ _ _ hab hbc => le_trans hab hbc⟩

/-- The ids invoked by the fallback loop are the longest non-succeeding
initial segment of the candidate list followed by the first succeeding
handler when one exists. -/
theorem fbLoop_invoked (env : Nat → Message → FbResult) (names : Nat → String)
    (msg : Message) (l : List Nat) :
    (fbLoop env names msg l).1
      = l.takeWhile (fun h => !(isFbSuccess (env h msg)))
        ++ (l.find? (fun h => isFbSuccess (env h msg))).toList := by
  induction l with
  | nil => simp [fbLoop]
  | cons a t ih =>
    cases hc : env a msg <;>
      simp [fbLoop, hc, isFbSuccess, List.takeWhile_cons, List.find?_cons, ih]

/-- The messages emitted by the fallback loop: one completion naming the
first succeeding handler, or the intent-failure message followed by the
exhaustion completion when none succeeds. -/
theorem fbLoop_trace (env : Nat → Message → FbResult) (names : Nat → String)
    (msg : Message) (l : List Nat) :
    (fbLoop env names msg l).2.1
      = (match l.find? (fun h => isFbSuccess (env h msg)) with
         | some h => [fallbackCompleteMsg (names h)]
         | none => [completeIntentFailureMsg, fallbackExhaustMsg]) := by
  induction l with
  | nil => simp [fbLoop]
  | cons a t ih =>
    cases hc : env a msg <;>
      simp [fbLoop, hc, isFbSuccess, List.find?_cons, ih]

/-- C1: the claim states that every invocation of a handler bound through
add_event emits exactly one start and exactly one complete event. The code
violates this on the failure path: the except block at core.py 373-375
emits a complete message with an exception field and then control falls
through to the unconditional emit at core.py 377-378, so a failing
invocation emits two complete events. This theorem evaluates the embedded
wrapper on a one-payload-argument bound method whose body raises: the trace
holds one start event and two complete events. -/
theorem wrapper_failure_emits_two_completes :
    wrapper "TestSkill" false
        ⟨2, CallResult.ok, CallResult.error "boom", CallResult.ok, "TestSkill.handler"⟩
        ⟨"test.event", []⟩
      = ([1],
         [handlerStartMsg "TestSkill.handler",
          speakMsg "An error occurred while processing a request in TestSkill",
          handlerCompleteExcMsg "TestSkill.handler" "boom",
          handlerCompleteMsg "TestSkill.handler"])
    ∧ countType "mycroft.skill.handler.start"
        (wrapper "TestSkill" false
          ⟨2, CallResult.ok, CallResult.error "boom", CallResult.ok, "TestSkill.handler"⟩
          ⟨"test.event", []⟩).2 = 1
    ∧ countType "mycroft.skill.handler.complete"
        (wrapper "TestSkill" false
          ⟨2, CallResult.ok, CallResult.error "boom", CallResult.ok, "TestSkill.handler"⟩
          ⟨"test.event", []⟩).2 = 2 := by
  refine ⟨rfl, rfl, rfl⟩

/-- C5: a handler declared to take zero arguments besides the implicit
self of a bound method, bound through add_event with need_self false, is
invoked exactly once with no arguments on any delivered message: its
getargspec length is one, so the dispatch at core.py 359-360 runs
handler(). -/
theorem add_event_zero_arg_no_owner (sn : String) (h : PyCallable)
    (hb : h.argspec = boundMethodArgspec 0) (msg : Message) :
    (wrapper sn false h msg).1 = [0]
    ∧ dispatchCalls false h = ([0], h.call0) := by
  have h1 : h.argspec = 1 := hb
  constructor
  · simp [wrapper, dispatchCalls, h1]
  · simp [dispatchCalls, h1]

/-- C5 witness: a concrete zero-visible-argument bound method delivered a
concrete payload is called with zero arguments. -/
theorem add_event_zero_arg_no_owner_witness :
    (⟨1, CallResult.ok, CallResult.ok, CallResult.ok, "S.h"⟩ : PyCallable).argspec
        = boundMethodArgspec 0
    ∧ ((wrapper "S" false ⟨1, CallResult.ok, CallResult.ok, CallResult.ok, "S.h"⟩
          ⟨"evt", [("utterance", "hello")]⟩).1 = [0]
       ∧ dispatchCalls false ⟨1, CallResult.ok, CallResult.ok, CallResult.ok, "S.h"⟩
          = ([0], CallResult.ok)) :=
  ⟨rfl, add_event_zero_arg_no_owner "S"
      ⟨1, CallResult.ok, CallResult.ok, CallResult.ok, "S.h"⟩ rfl
      ⟨"evt", [("utterance", "hello")]⟩⟩

/-- C6: a handler whose getargspec length is zero, bound with need_self
true, is first attempted with the two-argument call (owner, payload); the
owner-only call happens if and only if that first call raises TypeError
(core.py 347-353). -/
theorem add_event_zero_argspec_owner (sn : String) (h : PyCallable)
    (hz : h.argspec = 0) (msg : Message) :
    ((wrapper sn true h msg).1).head? = some 2
    ∧ ((wrapper sn true h msg).1 = [2, 1] ↔ h.call2 = CallResult.typeError)
    ∧ (h.call2 = CallResult.typeError →
        dispatchCalls true h = ([2, 1], h.call1))
    ∧ (h.call2 ≠ CallResult.typeError →
        (wrapper sn true h msg).1 = [2] ∧ dispatchCalls true h = ([2], h.call2)) := by
  cases hc : h.call2 <;> simp [wrapper, dispatchCalls, hz, hc]

/-- C6 witness: a concrete zero-argspec handler whose two-argument call
raises TypeError is retried with the owner-only call. -/
theorem add_event_zero_argspec_owner_witness :
    (⟨0, CallResult.ok, CallResult.ok, CallResult.typeError, "S.h"⟩ : PyCallable).argspec = 0
    ∧ (((wrapper "S" true ⟨0, CallResult.ok, CallResult.ok, CallResult.typeError, "S.h"⟩
          ⟨"evt", []⟩).1).head? = some 2
       ∧ ((wrapper "S" true ⟨0, CallResult.ok, CallResult.ok, CallResult.typeError, "S.h"⟩
            ⟨"evt", []⟩).1 = [2, 1]
          ↔ (⟨0, CallResult.ok, CallResult.ok, CallResult.typeError, "S.h"⟩ : PyCallable).call2
              = CallResult.typeError)
       ∧ ((⟨0, CallResult.ok, CallResult.ok, CallResult.typeError, "S.h"⟩ : PyCallable).call2
              = CallResult.typeError →
            dispatchCalls true ⟨0, CallResult.ok, CallResult.ok, CallResult.typeError, "S.h"⟩
              = ([2, 1], CallResult.ok))
       ∧ ((⟨0, CallResult.ok, CallResult.ok, CallResult.typeError, "S.h"⟩ : PyCallable).call2
              ≠ CallResult.typeError →
            (wrapper "S" true ⟨0, CallResult.ok, CallResult.ok, CallResult.typeError, "S.h"⟩
              ⟨"evt", []⟩).1 = [2]
            ∧ dispatchCalls true ⟨0, CallResult.ok, CallResult.ok, CallResult.typeError, "S.h"⟩
              = ([2], CallResult.typeError))) :=
  ⟨rfl, add_event_zero_argspec_owner "S"
      ⟨0, CallResult.ok, CallResult.ok, CallResult.typeError, "S.h"⟩ rfl ⟨"evt", []⟩⟩

/-- C2: the built fallback dispatcher first emits a handler.start event for
the pseudo-handler fallback, then tries the registered handlers in strictly
ascending priority order; the invoked ids are exactly the non-succeeding
initial segment of the priority-sorted list followed by the first
succeeding handler when one exists, the completion event names that
handler, no later handler is invoked, and when none succeeds the trace is
exactly one complete_intent_failure message followed by the exhaustion
completion. -/
theorem make_intent_failure_handler_spec (env : Nat → Message → FbResult)
    (names : Nat → String) (reg : List (Int × Nat)) (msg : Message)
    (hnd : (fbKeys reg).Nodup) :
    (make_intent_failure_handler env names reg msg).1
      = ((sortedFallbacks reg).map Prod.snd).takeWhile
          (fun h => !(isFbSuccess (env h msg)))
        ++ (((sortedFallbacks reg).map Prod.snd).find?
          (fun h => isFbSuccess (env h msg))).toList
    ∧ (make_intent_failure_handler env names reg msg).2.1
      = fallbackStartMsg ::
        (match ((sortedFallbacks reg).map Prod.snd).find?
            (fun h => isFbSuccess (env h msg)) with
         | some h => [fallbackCompleteMsg (names h)]
         | none => [completeIntentFailureMsg, fallbackExhaustMsg])
    ∧ List.Pairwise (fun a b => a.1 < b.1) (sortedFallbacks reg)
    ∧ List.Perm (sortedFallbacks reg) reg := by
  have hperm : List.Perm (sortedFallbacks reg) reg :=
    List.perm_insertionSort _ reg
  have hsorted : List.Sorted (fun a b : Int × Nat => a.1 ≤ b.1) (sortedFallbacks reg) :=
    List.sorted_insertionSort _ reg
  have hnodup : ((sortedFallbacks reg).map Prod.fst).Nodup := by
    have hp2 : List.Perm ((sortedFallbacks reg).map Prod.fst) (reg.map Prod.fst) :=
      hperm.map Prod.fst
    exact hp2.symm.nodup hnd
  have hpne : List.Pairwise (fun a b : Int × Nat => a.1 ≠ b.1) (sortedFallbacks reg) := by
    rw [List.Nodup, List.pairwise_map] at hnodup
    exact hnodup
  refine ⟨?_, ?_, ?_, hperm⟩
  · simpa [make_intent_failure_handler] using
      fbLoop_invoked env names msg ((sortedFallbacks reg).map Prod.snd)
  · simp only [make_intent_failure_handler]
    rw [fbLoop_trace env names msg ((sortedFallbacks reg).map Prod.snd)]
  · exact (hsorted.and hpne).imp (fun hab => lt_of_le_of_ne hab.1 hab.2)

/-- C2 witness: with handlers 7, 8, 9 registered at priorities 90, 10 and
50, where the priority-50 handler succeeds, the dispatcher tries 8 then 9,
never invokes 7, and reports handler 9 in the completion event. -/
theorem make_intent_failure_handler_spec_witness :
    (fbKeys [(90, 7), (10, 8), (50, 9)]).Nodup
    ∧ ((make_intent_failure_handler
          (fun h _ => if h = 9 then FbResult.success else FbResult.failure)
          (fun h => toString h) [(90, 7), (10, 8), (50, 9)] ⟨"m", []⟩).1
        = ((sortedFallbacks [(90, 7), (10, 8), (50, 9)]).map Prod.snd).takeWhile
            (fun h => !(isFbSuccess
              ((fun h _ => if h = 9 then FbResult.success else FbResult.failure) h
                (⟨"m", []⟩ : Message))))
          ++ (((sortedFallbacks [(90, 7), (10, 8), (50, 9)]).map Prod.snd).find?
            (fun h => isFbSuccess
              ((fun h _ => if h = 9 then FbResult.success else FbResult.failure) h
                (⟨"m", []⟩ : Message)))).toList
       ∧ (make_intent_failure_handler
          (fun h _ => if h = 9 then FbResult.success else FbResult.failure)
          (fun h => toString h) [(90, 7), (10, 8), (50, 9)] ⟨"m", []⟩).2.1
        = fallbackStartMsg ::
          (match ((sortedFallbacks [(90, 7), (10, 8), (50, 9)]).map Prod.snd).find?
              (fun h => isFbSuccess
                ((fun h _ => if h = 9 then FbResult.success else FbResult.failure) h
                  (⟨"m", []⟩ : Message))) with
           | some h => [fallbackCompleteMsg ((fun h => toString h) h)]
           | none => [completeIntentFailureMsg, fallbackExhaustMsg])
       ∧ List.Pairwise (fun a b => a.1 < b.1) (sortedFallbacks [(90, 7), (10, 8), (50, 9)])
       ∧ List.Perm (sortedFallbacks [(90, 7), (10, 8), (50, 9)]) [(90, 7), (10, 8), (50, 9)]) :=
  ⟨by decide,
   make_intent_failure_handler_spec
     (fun h _ => if h = 9 then FbResult.success else FbResult.failure)
     (fun h => toString h) [(90, 7), (10, 8), (50, 9)] ⟨"m", []⟩ (by decide)⟩

/-- C7: a fallback handler that raises is logged and treated as
non-matching: the loop invokes it, records the exception in the log, and
continues with the remaining candidates, whose telemetry is unchanged; the
exception never escapes the loop. -/
theorem fallback_raise_continues (env : Nat → Message → FbResult)
    (names : Nat → String) (msg : Message) (h : Nat) (e : String)
    (rest : List Nat) (hr : env h msg = FbResult.raises e) :
    fbLoop env names msg (h :: rest)
      = (h :: (fbLoop env names msg rest).1,
         ((fbLoop env names msg rest).2.1,
          ("Exception in fallback: " ++ e) :: (fbLoop env names msg rest).2.2)) := by
  simp [fbLoop, hr]

/-- C7 witness: a concrete raising handler at the head of the candidate
list is skipped over, logged, and the rest of the chain proceeds. -/
theorem fallback_raise_continues_witness :
    (fun hh _ => if hh = 0 then FbResult.raises "boom" else FbResult.success) 0
        (⟨"m", []⟩ : Message) = FbResult.raises "boom"
    ∧ fbLoop (fun hh _ => if hh = 0 then FbResult.raises "boom" else FbResult.success)
        (fun _ => "n") ⟨"m", []⟩ (0 :: [1])
      = (0 :: (fbLoop (fun hh _ => if hh = 0 then FbResult.raises "boom" else FbResult.success)
            (fun _ => "n") ⟨"m", []⟩ [1]).1,
         ((fbLoop (fun hh _ => if hh = 0 then FbResult.raises "boom" else FbResult.success)
            (fun _ => "n") ⟨"m", []⟩ [1]).2.1,
          ("Exception in fallback: " ++ "boom")
            :: (fbLoop (fun hh _ => if hh = 0 then FbResult.raises "boom" else FbResult.success)
              (fun _ => "n") ⟨"m", []⟩ [1]).2.2)) :=
  ⟨rfl, fallback_raise_continues
      (fun hh _ => if hh = 0 then FbResult.raises "boom" else FbResult.success)
      (fun _ => "n") ⟨"m", []⟩ 0 "boom" [1] rfl⟩

/-- The slot found by the probing loop is unoccupied. -/
theorem findSlot_not_mem (keys : List Int) (p : Int) : findSlot keys p ∉ keys := by
  induction p using findSlot.induct keys with
  | case1 p hp ih =>
    rw [findSlot]
    simp only [hp, dif_pos]
    exact ih
  | case2 p hp =>
    rw [findSlot]
    simp only [hp, dif_neg, not_false_iff]

/-- The slot found by the probing loop is at or above the request. -/
theorem findSlot_ge (keys : List Int) (p : Int) : p ≤ findSlot keys p := by
  induction p using findSlot.induct keys with
  | case1 p hp ih =>
    rw [findSlot]
    simp only [hp, dif_pos]
    omega
  | case2 p hp =>
    rw [findSlot]
    simp only [hp, dif_neg, not_false_iff]
    omega

/-- Every integer between the request and the found slot is occupied. -/
theorem findSlot_occupied (keys : List Int) (p : Int) :
    ∀ r, p ≤ r → r < findSlot keys p → r ∈ keys := by
  induction p using findSlot.induct keys with
  | case1 p hp ih =>
    intro r hpr hrs
    rw [findSlot] at hrs
    simp only [hp, dif_pos] at hrs
    rcases eq_or_lt_of_le hpr with heq | hlt
    · rw [← heq]; exact hp
    · exact ih r (by omega) hrs
  | case2 p hp =>
    intro r hpr hrs
    rw [findSlot] at hrs
    simp only [hp, dif_neg, not_false_iff] at hrs
    omega

/-- C3: registering a fallback probes successive integers from the
requested priority until a free slot is found and stores the handler
there: the assigned slot is free, at or above the request, every smaller
slot at or above the request is occupied, the registry gains exactly the
new pair, and the priority keys stay free of duplicates. -/
theorem register_fallback_probes (reg : List (Int × Nat)) (h : Nat) (p : Int)
    (hnd : (fbKeys reg).Nodup) :
    findSlot (fbKeys reg) p ∉ fbKeys reg
    ∧ p ≤ findSlot (fbKeys reg) p
    ∧ (∀ r, p ≤ r → r < findSlot (fbKeys reg) p → r ∈ fbKeys reg)
    ∧ _register_fallback reg h p = reg ++ [(findSlot (fbKeys reg) p, h)]
    ∧ (fbKeys (_register_fallback reg h p)).Nodup := by
  refine ⟨findSlot_not_mem _ _, findSlot_ge _ _, findSlot_occupied _ _, rfl, ?_⟩
  have hkeys : fbKeys (_register_fallback reg h p)
      = fbKeys reg ++ [findSlot (fbKeys reg) p] := by
    simp [_register_fallback, fbKeys]
  rw [hkeys]
  rw [List.nodup_append]
  refine ⟨hnd, List.nodup_singleton _, ?_⟩
  intro a ha hb
  have : a = findSlot (fbKeys reg) p := by simpa using hb
  rw [this] at ha
  exact findSlot_not_mem _ _ ha

/-- C3 witness: requesting priority 10 twice yields slots 10 and 11; the
first registrant keeps the requested value and the second is bumped. -/
theorem register_fallback_probes_witness :
    (fbKeys [((10 : Int), 7)]).Nodup
    ∧ (findSlot (fbKeys [((10 : Int), 7)]) 10 ∉ fbKeys [((10 : Int), 7)]
       ∧ (10 : Int) ≤ findSlot (fbKeys [((10 : Int), 7)]) 10
       ∧ (∀ r, (10 : Int) ≤ r → r < findSlot (fbKeys [((10 : Int), 7)]) 10 →
            r ∈ fbKeys [((10 : Int), 7)])
       ∧ _register_fallback [((10 : Int), 7)] 8 10
          = [((10 : Int), 7)] ++ [(findSlot (fbKeys [((10 : Int), 7)]) 10, 8)]
       ∧ (fbKeys (_register_fallback [((10 : Int), 7)] 8 10)).Nodup)
    ∧ _register_fallback (_register_fallback [] 7 10) 8 10 = [((10 : Int), 7), (11, 8)] := by
  refine ⟨by decide, register_fallback_probes [((10 : Int), 7)] 8 10 (by decide), ?_⟩
  have e1 : _register_fallback ([] : List (Int × Nat)) 7 10 = [((10 : Int), 7)] := by
    rw [_register_fallback, findSlot]
    simp [fbKeys]
  rw [e1, _register_fallback]
  rw [findSlot, findSlot]
  simp [fbKeys]

/-- The registry after remove_fallback is the original with the first
entry holding the target handler erased. -/
theorem remove_fallback_eraseP (reg : List (Int × Nat)) (t : Nat) :
    (remove_fallback reg t).1 = reg.eraseP (fun e => e.2 == t) := by
  induction reg with
  | nil => rfl
  | cons a tl ih =>
    obtain ⟨p, h⟩ := a
    by_cases hh : h = t
    · simp [remove_fallback, hh, List.eraseP_cons]
    · simp [remove_fallback, hh, List.eraseP_cons, ih]

/-- When no entry holds the target handler, remove_fallback leaves the
registry unchanged and logs the warning. -/
theorem remove_fallback_no_match (reg : List (Int × Nat)) (t : Nat)
    (hno : ∀ e ∈ reg, e.2 ≠ t) :
    remove_fallback reg t = (reg, ["Could not remove fallback!"]) := by
  induction reg with
  | nil => rfl
  | cons a tl ih =>
    obtain ⟨p, h⟩ := a
    have hh : h ≠ t := hno (p, h) (List.mem_cons_self _ _)
    have ih2 := ih (fun e he => hno e (List.mem_cons_of_mem _ he))
    simp [remove_fallback, hh, ih2]

/-- When the first matching entry sits after a match-free initial segment,
remove_fallback deletes exactly that entry and logs nothing. -/
theorem remove_fallback_first_match (l₁ : List (Int × Nat)) (x : Int × Nat)
    (l₂ : List (Int × Nat)) (t : Nat) (hl₁ : ∀ y ∈ l₁, y.2 ≠ t) (hx : x.2 = t) :
    remove_fallback (l₁ ++ x :: l₂) t = (l₁ ++ l₂, []) := by
  induction l₁ with
  | nil =>
    obtain ⟨p, h⟩ := x
    have hh : h = t := hx
    simp only [List.nil_append]
    simp [remove_fallback, hh]
  | cons a tl ih =>
    obtain ⟨p, h⟩ := a
    have hh : h ≠ t := hl₁ (p, h) (List.mem_cons_self _ _)
    have ih2 := ih (fun y hy => hl₁ y (List.mem_cons_of_mem _ hy))
    simp [remove_fallback, hh, ih2]

/-- Entries holding a different handler keep their multiplicity across
remove_fallback. -/
theorem remove_fallback_count_other (reg : List (Int × Nat)) (t : Nat)
    (pr : Int × Nat) (hne : pr.2 ≠ t) :
    (remove_fallback reg t).1.count pr = reg.count pr := by
  induction reg with
  | nil => rfl
  | cons a tl ih =>
    obtain ⟨p, h⟩ := a
    by_cases hh : h = t
    · have hpr2 : ¬((p, t) = pr) := by
        intro hc
        apply hne
        rw [← hc]
      simp [remove_fallback, hh, List.count_cons, hpr2]
    · simp [remove_fallback, hh, List.count_cons, ih]

/-- C10: remove_fallback deletes at most one entry per call, namely the
first entry in registry iteration order whose handler equals the given
one; every other priority-handler pair keeps its multiplicity, and when no
entry matches the registry is unchanged and only a warning is logged. -/
theorem remove_fallback_frame (reg : List (Int × Nat)) (t : Nat) :
    (remove_fallback reg t).1 = reg.eraseP (fun e => e.2 == t)
    ∧ ((∀ e ∈ reg, e.2 ≠ t) →
        (remove_fallback reg t).1 = reg
        ∧ (remove_fallback reg t).2 = ["Could not remove fallback!"])
    ∧ (∀ l₁ x l₂, reg = l₁ ++ x :: l₂ → (∀ y ∈ l₁, y.2 ≠ t) → x.2 = t →
        (remove_fallback reg t).1 = l₁ ++ l₂ ∧ (remove_fallback reg t).2 = [])
    ∧ (∀ pr : Int × Nat, pr.2 ≠ t →
        (remove_fallback reg t).1.count pr = reg.count pr) := by
  refine ⟨remove_fallback_eraseP reg t, ?_, ?_, ?_⟩
  · intro hno
    rw [remove_fallback_no_match reg t hno]
    exact ⟨rfl, rfl⟩
  · intro l₁ x l₂ hdecomp hl₁ hx
    rw [hdecomp, remove_fallback_first_match l₁ x l₂ t hl₁ hx]
    exact ⟨rfl, rfl⟩
  · intro pr hne
    exact remove_fallback_count_other reg t pr hne

/-- C10 witness: removing handler 5 from a registry holding it twice
deletes only the first entry, keeps the pair at priority 20, and removing
an absent handler changes nothing and logs the warning. -/
theorem remove_fallback_frame_witness :
    (remove_fallback [((10 : Int), 5), (20, 6), (30, 5)] 5).1 = [((20 : Int), 6), (30, 5)]
    ∧ (remove_fallback [((10 : Int), 5), (20, 6), (30, 5)] 5).2 = []
    ∧ (remove_fallback [((10 : Int), 5), (20, 6), (30, 5)] 5).1.count ((20 : Int), 6) = 1
    ∧ (remove_fallback [((40 : Int), 9)] 5).1 = [((40 : Int), 9)]
    ∧ (remove_fallback [((40 : Int), 9)] 5).2 = ["Could not remove fallback!"] := by
  have s1 := (remove_fallback_frame [((10 : Int), 5), (20, 6), (30, 5)] 5).2.2.1
      [] ((10 : Int), 5) [(20, 6), (30, 5)] rfl (by decide) rfl
  have s2 := (remove_fallback_frame [((40 : Int), 9)] 5).2.1 (by decide)
  have s3 := (remove_fallback_frame [((10 : Int), 5), (20, 6), (30, 5)] 5).2.2.2
      ((20 : Int), 6) (by decide)
  exact ⟨s1.1, s1.2, by rw [s3]; decide, s2.1, s2.2⟩

/-- A filename that ends with the entity suffix contains the marker. -/
theorem containsEntity_append_pat (base : List Char) :
    containsEntity (base ++ ['.', 'e', 'n', 't', 'i', 't', 'y']) = true := by
  induction base with
  | nil => rfl
  | cons c cs ih =>
    rw [List.cons_append, containsEntity.eq_def]
    split
    · rfl
    · rename_i head rest heq
      injection heq with h1 h2
      rw [← h2]
      exact ih
    · rename_i heq
      simp at heq

/-- Removing the marker from a dot-free name followed by the entity suffix
yields the bare name. -/
theorem stripEntityAll_append_pat (base : List Char) (hnd : '.' ∉ base) :
    stripEntityAll (base ++ ['.', 'e', 'n', 't', 'i', 't', 'y']) = base := by
  induction base with
  | nil => rfl
  | cons c cs ih =>
    have hc : ¬ c = '.' := by
      intro h
      apply hnd
      rw [← h]
      exact List.mem_cons_self c cs
    rw [List.cons_append, stripEntityAll.eq_2]
    · rw [ih (fun hm => hnd (List.mem_cons_of_mem _ hm))]
    · intro tail hcdot _
      exact hc hcdot

/-- C8: register_entity_file raises the invalid-filename error if and only
if the filename does not contain the entity marker, and in that case no
bus message is produced; otherwise it emits exactly one
padatious:register_entity message whose name field is the skill id, a
colon, and the filename with the marker removed, which for a dot-free base
name followed by the suffix is exactly the base name. -/
theorem register_entity_file_spec (sid : Nat) (vd f : List Char) :
    ((∃ e, register_entity_file sid vd f = Except.error e) ↔ containsEntity f = false)
    ∧ (∀ msgs, register_entity_file sid vd f = Except.ok msgs →
        msgs = [⟨"padatious:register_entity",
          [("file_name", String.mk (osJoin vd f)),
           ("name", toString sid ++ ":" ++ String.mk (stripEntityAll f))]⟩])
    ∧ (∀ base, f = base ++ ['.', 'e', 'n', 't', 'i', 't', 'y'] → '.' ∉ base →
        register_entity_file sid vd f
          = Except.ok [⟨"padatious:register_entity",
              [("file_name", String.mk (osJoin vd f)),
               ("name", toString sid ++ ":" ++ String.mk base)]⟩]) := by
  refine ⟨?_, ?_, ?_⟩
  · by_cases hc : containsEntity f = true
    · simp [register_entity_file, hc]
    · simp [register_entity_file, hc]
  · intro msgs hok
    by_cases hc : containsEntity f = true
    · simp [register_entity_file, hc] at hok
      exact hok.symm
    · simp [register_entity_file, hc] at hok
  · intro base hbase hnd
    subst hbase
    have h1 := containsEntity_append_pat base
    have h2 := stripEntityAll_append_pat base hnd
    simp [register_entity_file, h1, h2]

/-- C8 witness: a dot-free base name with the suffix registers under the
stripped name, and a filename without the marker fails. -/
theorem register_entity_file_spec_witness :
    register_entity_file 3 ['v'] ['w', '.', 'e', 'n', 't', 'i', 't', 'y']
      = Except.ok [⟨"padatious:register_entity",
          [("file_name", String.mk (osJoin ['v'] ['w', '.', 'e', 'n', 't', 'i', 't', 'y'])),
           ("name", toString 3 ++ ":" ++ String.mk ['w'])]⟩]
    ∧ (∃ e, register_entity_file 3 ['v'] ['f', 'o', 'o'] = Except.error e) := by
  constructor
  · exact (register_entity_file_spec 3 ['v']
      (['w'] ++ ['.', 'e', 'n', 't', 'i', 't', 'y'])).2.2 ['w'] rfl (by decide)
  · exact (register_entity_file_spec 3 ['v'] ['f', 'o', 'o']).1.mpr (by decide)

/-- C9: add_event with an absent handler is a no-op on the whole state, and
the re-registration path of enable_intent publishes the registration
message while leaving the bus subscriptions and the events list of the
skill unchanged. -/
theorem add_event_none_noop (w : SkillWorld) (nm intent_name : String) :
    add_event w nm none = w
    ∧ (∀ n intent,
        w.registered_intents.find? (fun e => e.1 == intent_name) = some (n, intent) →
          (enable_intent w intent_name).subs = w.subs
          ∧ (enable_intent w intent_name).events = w.events
          ∧ (enable_intent w intent_name).emitted
              = w.emitted ++ [⟨"register_intent",
                  ("name", toString w.skill_id ++ ":" ++ n) :: intent.payload⟩]) := by
  refine ⟨rfl, ?_⟩
  intro n intent hfind
  refine ⟨?_, ?_, ?_⟩ <;>
    simp [enable_intent, hfind, register_intent, emitMsg, add_event]

/-- C9 witness: a concrete skill state with one recorded intent named foo
re-registers it without touching subscriptions or events. -/
theorem add_event_none_noop_witness :
    add_event ⟨1, [("e", 0)], [("foo", ⟨"1:foo", [("req", "x")]⟩)], 1, [("e", 0)], [], [], []⟩
        "x.event" none
      = ⟨1, [("e", 0)], [("foo", ⟨"1:foo", [("req", "x")]⟩)], 1, [("e", 0)], [], [], []⟩
    ∧ ((enable_intent
          ⟨1, [("e", 0)], [("foo", ⟨"1:foo", [("req", "x")]⟩)], 1, [("e", 0)], [], [], []⟩
          "foo").subs
        = (⟨1, [("e", 0)], [("foo", ⟨"1:foo", [("req", "x")]⟩)], 1, [("e", 0)], [], [], []⟩
            : SkillWorld).subs
       ∧ (enable_intent
          ⟨1, [("e", 0)], [("foo", ⟨"1:foo", [("req", "x")]⟩)], 1, [("e", 0)], [], [], []⟩
          "foo").events
        = (⟨1, [("e", 0)], [("foo", ⟨"1:foo", [("req", "x")]⟩)], 1, [("e", 0)], [], [], []⟩
            : SkillWorld).events
       ∧ (enable_intent
          ⟨1, [("e", 0)], [("foo", ⟨"1:foo", [("req", "x")]⟩)], 1, [("e", 0)], [], [], []⟩
          "foo").emitted
        = (⟨1, [("e", 0)], [("foo", ⟨"1:foo", [("req", "x")]⟩)], 1, [("e", 0)], [], [], []⟩
            : SkillWorld).emitted
          ++ [⟨"register_intent",
              ("name", toString (⟨1, [("e", 0)], [("foo", ⟨"1:foo", [("req", "x")]⟩)], 1,
                  [("e", 0)], [], [], []⟩ : SkillWorld).skill_id ++ ":" ++ "foo")
                :: (⟨"1:foo", [("req", "x")]⟩ : Intent).payload⟩]) :=
  ⟨(add_event_none_noop
      ⟨1, [("e", 0)], [("foo", ⟨"1:foo", [("req", "x")]⟩)], 1, [("e", 0)], [], [], []⟩
      "x.event" "foo").1,
   (add_event_none_noop
      ⟨1, [("e", 0)], [("foo", ⟨"1:foo", [("req", "x")]⟩)], 1, [("e", 0)], [], [], []⟩
      "x.event" "foo").2 "foo" ⟨"1:foo", [("req", "x")]⟩ rfl⟩

/-- A pair is never a member of the subscription list after its own
removal. -/
theorem not_mem_emitterRemoveSub_self (subs : List (String × Nat))
    (ef : String × Nat) : ef ∉ emitterRemoveSub subs ef.1 ef.2 := by
  intro hmem
  have hpred := List.of_mem_filter hmem
  simp at hpred

/-- Removal never adds subscriptions. -/
theorem mem_of_mem_emitterRemoveSub (subs : List (String × Nat))
    (e : String) (f : Nat) (p : String × Nat)
    (hp : p ∈ emitterRemoveSub subs e f) : p ∈ subs :=
  List.mem_of_mem_filter hp

/-- Folding removals never adds subscriptions. -/
theorem mem_of_mem_foldl_remove (l : List (String × Nat))
    (subs : List (String × Nat)) (p : String × Nat)
    (hp : p ∈ l.foldl (fun s ef => emitterRemoveSub s ef.1 ef.2) subs) :
    p ∈ subs := by
  induction l generalizing subs with
  | nil => exact hp
  | cons a t ih =>
    exact mem_of_mem_emitterRemoveSub subs a.1 a.2 p (ih _ hp)

/-- After folding the removal of every pair of a list over the
subscriptions, none of the pairs of the list remains subscribed. -/
theorem foldl_remove_clears (l : List (String × Nat))
    (subs : List (String × Nat)) :
    ∀ p ∈ l, p ∉ l.foldl (fun s ef => emitterRemoveSub s ef.1 ef.2) subs := by
  induction l generalizing subs with
  | nil => simp
  | cons a t ih =>
    intro p hp
    rcases List.mem_cons.mp hp with heq | hpt
    · intro hmem
      rw [heq] at hmem
      have := mem_of_mem_foldl_remove t (emitterRemoveSub subs a.1 a.2) a hmem
      exact not_mem_emitterRemoveSub_self subs a this
    · exact ih (emitterRemoveSub subs a.1 a.2) p hpt

/-- Removing a handler decrements its own entry count by one. -/
theorem remove_fallback_countP_self (reg : List (Int × Nat)) (t : Nat) :
    (remove_fallback reg t).1.countP (fun e => e.2 == t)
      = reg.countP (fun e => e.2 == t) - 1 := by
  induction reg with
  | nil => rfl
  | cons a tl ih =>
    obtain ⟨p, h⟩ := a
    by_cases hh : h = t
    · simp [remove_fallback, hh, List.countP_cons]
    · simp [remove_fallback, hh, List.countP_cons, ih]

/-- Removing a handler keeps the entry count of every other handler. -/
theorem remove_fallback_countP_other (reg : List (Int × Nat)) (t h : Nat)
    (hne : h ≠ t) :
    (remove_fallback reg t).1.countP (fun e => e.2 == h)
      = reg.countP (fun e => e.2 == h) := by
  induction reg with
  | nil => rfl
  | cons a tl ih =>
    obtain ⟨p, h0⟩ := a
    by_cases hh : h0 = t
    · have hne2 : ¬(h0 == h) = true := by
        simp only [beq_iff_eq]
        intro hcontra
        exact hne (by rw [← hcontra, hh])
      simp [remove_fallback, hh, List.countP_cons, hne2]
      exact fun hc => hne hc.symm
    · simp [remove_fallback, hh, List.countP_cons, ih]

/-- When a handler occurs in the registry no more often than in the
processed list, processing the list removes every occurrence. -/
theorem removeHandlersRev_countP (l : List Nat) (reg : List (Int × Nat))
    (h : Nat) (hb : reg.countP (fun e => e.2 == h) ≤ l.count h) :
    (removeHandlersRev reg l).countP (fun e => e.2 == h) = 0 := by
  induction l generalizing reg with
  | nil =>
    simp only [List.count_nil, Nat.le_zero] at hb
    simpa [removeHandlersRev] using hb
  | cons a t ih =>
    show (removeHandlersRev (remove_fallback reg a).1 t).countP (fun e => e.2 == h) = 0
    apply ih
    by_cases hah : a = h
    · rw [hah]
      rw [remove_fallback_countP_self reg h]
      have hcnt : (a :: t).count h = t.count h + 1 := by
        rw [List.count_cons]
        simp [hah]
      rw [hcnt] at hb
      omega
    · have hother := remove_fallback_countP_other reg a h (fun hc => hah hc.symm)
      rw [hother]
      have hcnt : (a :: t).count h = t.count h := by
        rw [List.count_cons]
        simp [hah]
      rw [hcnt] at hb
      exact hb

/-- C4: after FallbackSkill.shutdown, no event binding the skill created
remains subscribed on the bus, no delivery of any event name can invoke a
wrapper the skill bound, and no fallback handler the instance registered
remains in the shared registry. The subscription hypothesis states that
every subscription using one of the skill wrappers is one of its recorded
bindings, and the count hypothesis states that entries holding the instance
handlers were put in the registry by this instance at most as often as the
instance recorded them. -/
theorem fallback_shutdown_clean (w : SkillWorld)
    (hsub : ∀ p ∈ w.subs, p.2 ∈ w.events.map Prod.snd → p ∈ w.events)
    (hcount : ∀ h ∈ w.instance_fallback_handlers,
        w.fallback_handlers.countP (fun e => e.2 == h)
          ≤ w.instance_fallback_handlers.count h) :
    (∀ p ∈ w.events, p ∉ (FallbackSkill.shutdown w).subs)
    ∧ (∀ p ∈ w.events, ∀ nm, p.2 ∉ deliverTargets (FallbackSkill.shutdown w).subs nm)
    ∧ (∀ h ∈ w.instance_fallback_handlers,
        ∀ e ∈ (FallbackSkill.shutdown w).fallback_handlers, e.2 ≠ h) := by
  have hsubs_eq : (FallbackSkill.shutdown w).subs
      = w.events.foldl (fun s ef => emitterRemoveSub s ef.1 ef.2) w.subs := rfl
  have hfb_eq : (FallbackSkill.shutdown w).fallback_handlers
      = removeHandlersRev w.fallback_handlers w.instance_fallback_handlers.reverse := rfl
  have part1 : ∀ p ∈ w.events, p ∉ (FallbackSkill.shutdown w).subs := by
    intro p hp
    rw [hsubs_eq]
    exact foldl_remove_clears w.events w.subs p hp
  refine ⟨part1, ?_, ?_⟩
  · intro p hp nm hmem
    simp only [deliverTargets, List.mem_map] at hmem
    obtain ⟨q, hqfil, hq2⟩ := hmem
    have hqsub : q ∈ (FallbackSkill.shutdown w).subs := List.mem_of_mem_filter hqfil
    have hqorig : q ∈ w.subs := by
      rw [hsubs_eq] at hqsub
      exact mem_of_mem_foldl_remove w.events w.subs q hqsub
    have hqev : q ∈ w.events := by
      apply hsub q hqorig
      rw [hq2]
      exact List.mem_map_of_mem Prod.snd hp
    exact part1 q hqev hqsub
  · intro h hm e he
    have hzero : (removeHandlersRev w.fallback_handlers
        w.instance_fallback_handlers.reverse).countP (fun e => e.2 == h) = 0 := by
      apply removeHandlersRev_countP
      rw [List.count_reverse]
      exact hcount h hm
    rw [hfb_eq] at he
    have := List.countP_eq_zero.mp hzero e he
    simpa using this

/-- C4 witness: a concrete skill with one event binding and one fallback
handler ends shutdown with no live subscription of its wrapper and no
registry entry holding its handler. -/
theorem fallback_shutdown_clean_witness :
    (∀ p ∈ (⟨2, [("ev", 0)], [], 1, [("ev", 0)], [], [((10 : Int), 5)], [5]⟩
        : SkillWorld).events,
      p ∉ (FallbackSkill.shutdown
        ⟨2, [("ev", 0)], [], 1, [("ev", 0)], [], [((10 : Int), 5)], [5]⟩).subs)
    ∧ (∀ p ∈ (⟨2, [("ev", 0)], [], 1, [("ev", 0)], [], [((10 : Int), 5)], [5]⟩
        : SkillWorld).events,
      ∀ nm, p.2 ∉ deliverTargets (FallbackSkill.shutdown
        ⟨2, [("ev", 0)], [], 1, [("ev", 0)], [], [((10 : Int), 5)], [5]⟩).subs nm)
    ∧ (∀ h ∈ (⟨2, [("ev", 0)], [], 1, [("ev", 0)], [], [((10 : Int), 5)], [5]⟩
        : SkillWorld).instance_fallback_handlers,
      ∀ e ∈ (FallbackSkill.shutdown
        ⟨2, [("ev", 0)], [], 1, [("ev", 0)], [], [((10 : Int), 5)], [5]⟩).fallback_handlers,
      e.2 ≠ h) :=
  fallback_shutdown_clean
    ⟨2, [("ev", 0)], [], 1, [("ev", 0)], [], [((10 : Int), 5)], [5]⟩
    (by decide) (by decide)

end MycroftCore
